import Mathlib

/-!
# Sentiment–Return Alignment & Correlation Engine: a shallow embedding

This file embeds, in Lean 4, the alignment / aggregation / correlation logic of
the Financial_News_Stock_Analysis repository and proves (or refutes) the
specification claims about it.

Conventions of the embedding:
* Calendar dates are integers (day numbers); `timedelta(days=1)` is `+ 1`.
* Python floats are modelled as exact rationals `ℚ`; a pandas `NaN` cell is
  modelled as `none` of an `Option` type.
* Statistical quantities that live in the continuum (Pearson r and friends,
  which involve square roots) are modelled over `ℝ`.
* Fallible steps are modelled with `Except`; a Python `try/except` wrapper
  becomes a `match` on the `Except` value.

Sources embedded: `src/merge_and_features.py` (DataMerger), `src/sentiment.py`
(SentimentAnalyzer category bucketing), `src/correlation_analyzer.py`
(CorrelationAnalyzer), `src/merger.py` (the script pipeline with its
demo-data fallback).
-/

/-! ## Trading-day alignment (`DataMerger.align_with_trading_days.map_to_trading_day`)

The source keeps `trading_days` as a set of dates derived from the stock
frame.  `map_to_trading_day` returns the date itself when it is a trading
day, otherwise scans forward day by day while `(next_day - date).days < 7`,
then backward while `(date - prev_day).days < 7`, and finally falls back to
the input date.  The hard-coded `7` appears here as the parameters
`lookahead` / `lookback` (instantiated with `7` wherever the source is
modelled verbatim).  The Python `while` loop's guard is the termination
measure of the recursion, so totality of these functions is exactly the
termination of the source loops. -/

/-- The forward scan: `next_day = date + 1; while next_day not in trading_days
and (next_day - date).days < bound: next_day += 1`.  Returns the final value of
`next_day`. -/
def fwdWhile (td : List Int) (base bound : Int) (nd : Int) : Int :=
  if nd ∉ td ∧ nd - base < bound then fwdWhile td base bound (nd + 1) else nd
termination_by (bound - (nd - base)).toNat
decreasing_by
  rename_i h
  omega

/-- The backward scan: `prev_day = date - 1; while prev_day not in trading_days
and (date - prev_day).days < bound: prev_day -= 1`. -/
def bwdWhile (td : List Int) (base bound : Int) (nd : Int) : Int :=
  if nd ∉ td ∧ base - nd < bound then bwdWhile td base bound (nd - 1) else nd
termination_by (bound - (base - nd)).toNat
decreasing_by
  rename_i h
  omega

/-- `map_to_trading_day` from `src/merge_and_features.py` (lines 49–74), with
the source's two hard-coded `7`-day windows exposed as `lookahead` and
`lookback`.  The source's `except` arm (`return date`) is unreachable in this
typed model, where every input is already a well-formed date. -/
def map_to_trading_day (td : List Int) (lookahead lookback : Int) (date : Int) : Int :=
  if date ∈ td then date
  else
    let next_day := fwdWhile td date lookahead (date + 1)
    if next_day ∈ td then next_day
    else
      let prev_day := bwdWhile td date lookback (date - 1)
      if prev_day ∈ td then prev_day else date

/-- The alignment step applies `map_to_trading_day` (with the source's fixed
7-day windows) to every news date; no row is ever dropped by it
(`news_normalized['aligned_date'] = news_normalized[...].apply(map_to_trading_day)`). -/
def alignNewsDates (td : List Int) (newsDates : List Int) : List Int :=
  newsDates.map (map_to_trading_day td 7 7)

lemma fwdWhile_ge (td : List Int) (base bound : Int) (nd : Int) :
    nd ≤ fwdWhile td base bound nd := by
  induction nd using fwdWhile.induct td base bound with
  | case1 nd h ih =>
    rw [fwdWhile, if_pos h]
    omega
  | case2 nd h =>
    rw [fwdWhile, if_neg h]

lemma fwdWhile_le (td : List Int) (base bound : Int) (nd : Int) :
    fwdWhile td base bound nd ≤ max nd (base + bound) := by
  induction nd using fwdWhile.induct td base bound with
  | case1 nd h ih =>
    rw [fwdWhile, if_pos h]
    omega
  | case2 nd h =>
    rw [fwdWhile, if_neg h]
    omega

lemma bwdWhile_le (td : List Int) (base bound : Int) (nd : Int) :
    bwdWhile td base bound nd ≤ nd := by
  induction nd using bwdWhile.induct td base bound with
  | case1 nd h ih =>
    rw [bwdWhile, if_pos h]
    omega
  | case2 nd h =>
    rw [bwdWhile, if_neg h]

lemma bwdWhile_ge (td : List Int) (base bound : Int) (nd : Int) :
    min nd (base - bound) ≤ bwdWhile td base bound nd := by
  induction nd using bwdWhile.induct td base bound with
  | case1 nd h ih =>
    rw [bwdWhile, if_pos h]
    omega
  | case2 nd h =>
    rw [bwdWhile, if_neg h]
    omega

/-- If no day of `[nd, base + bound]` is a trading day, the forward scan runs
to the end of its window and stops at `base + bound`. -/
lemma fwdWhile_of_no_match (td : List Int) (base bound : Int) (nd : Int)
    (hno : ∀ j : Int, nd ≤ j → j ≤ base + bound → j ∉ td)
    (hle : nd ≤ base + bound) :
    fwdWhile td base bound nd = base + bound := by
  induction nd using fwdWhile.induct td base bound with
  | case1 nd h ih =>
    rw [fwdWhile, if_pos h]
    rcases lt_or_eq_of_le hle with hlt | heq
    · exact ih (fun j h1 h2 => hno j (by omega) h2) (by omega)
    · omega
  | case2 nd h =>
    rw [fwdWhile, if_neg h]
    have := hno nd le_rfl hle
    rcases not_and_or.mp h with h1 | h2
    · exact absurd (not_not.mp h1) this
    · omega

/-- If no day of `[base - bound, nd]` is a trading day, the backward scan runs
to the end of its window and stops at `base - bound`. -/
lemma bwdWhile_of_no_match (td : List Int) (base bound : Int) (nd : Int)
    (hno : ∀ j : Int, base - bound ≤ j → j ≤ nd → j ∉ td)
    (hle : base - bound ≤ nd) :
    bwdWhile td base bound nd = base - bound := by
  induction nd using bwdWhile.induct td base bound with
  | case1 nd h ih =>
    rw [bwdWhile, if_pos h]
    rcases lt_or_eq_of_le hle with hlt | heq
    · exact ih (fun j h1 h2 => hno j h1 (by omega)) (by omega)
    · omega
  | case2 nd h =>
    rw [bwdWhile, if_neg h]
    have := hno nd hle le_rfl
    rcases not_and_or.mp h with h1 | h2
    · exact absurd (not_not.mp h1) this
    · omega

/-- C6: for every (ticker, date) such that `date` is itself a trading day,
`map_to_trading_day` returns `date` unchanged, for any lookahead/lookback
configuration. -/
theorem C6_trading_day_returned_unchanged (td : List Int) (lookahead lookback : Int)
    (date : Int) (h : date ∈ td) :
    map_to_trading_day td lookahead lookback date = date := by
  simp [map_to_trading_day, h]

theorem C6_trading_day_returned_unchanged_witness :
    map_to_trading_day [5] 3 2 5 = 5 :=
  C6_trading_day_returned_unchanged [5] 3 2 5 (by decide)

/-- C9: the trading-day mapping always terminates (it is a total function of
this development, whose termination measure is exactly the source loops'
guards) and returns a date at distance at most 7 days from the input: the
forward scan stops by `date + 7`, the backward scan by `date - 7`, and the
final fallback returns `date` itself. -/
theorem C9_mapped_date_within_seven_days (td : List Int) (date : Int) :
    |map_to_trading_day td 7 7 date - date| ≤ 7 := by
  have hf1 := fwdWhile_ge td date 7 (date + 1)
  have hf2 := fwdWhile_le td date 7 (date + 1)
  have hb1 := bwdWhile_le td date 7 (date - 1)
  have hb2 := bwdWhile_ge td date 7 (date - 1)
  simp only [map_to_trading_day]
  split_ifs <;> rw [abs_le] <;> constructor <;> omega

/-- C3 (counterexample): the claim says that when no trading day exists within
the lookahead/lookback windows, the mapping returns `None` and the item is
dropped.  In the source, the final fallback is `return prev_day if prev_day in
trading_days else date`: with no trading days at all, date `0` is mapped to
itself and the news item is kept (aligned to a non-trading date), never
dropped. -/
theorem C3_counterexample :
    map_to_trading_day [] 7 7 0 = 0 ∧ alignNewsDates [] [0] = [0] := by
  have hf := fwdWhile_of_no_match [] 0 7 1 (by simp) (by norm_num)
  have hb := bwdWhile_of_no_match [] 0 7 (-1) (by simp) (by norm_num)
  norm_num at hf hb
  have h : map_to_trading_day [] 7 7 0 = 0 := by
    simp [map_to_trading_day, hf, hb]
  exact ⟨h, by simp [alignNewsDates, h]⟩

/-- C3 (amended): when `date` is not a trading day and no trading day exists
within 7 days forward nor 7 days backward, `map_to_trading_day` returns the
input `date` itself — the item is kept, aligned to that non-trading date —
rather than returning `None`/dropping it. -/
theorem C3_no_match_returns_input_date (td : List Int) (date : Int)
    (hno : ∀ j : Int, date - 7 ≤ j → j ≤ date + 7 → j ∉ td) :
    map_to_trading_day td 7 7 date = date ∧ alignNewsDates td [date] = [date] := by
  have hdate : date ∉ td := hno date (by omega) (by omega)
  have hf : fwdWhile td date 7 (date + 1) = date + 7 :=
    fwdWhile_of_no_match td date 7 (date + 1) (fun j h1 h2 => hno j (by omega) h2) (by omega)
  have hb : bwdWhile td date 7 (date - 1) = date - 7 :=
    bwdWhile_of_no_match td date 7 (date - 1) (fun j h1 h2 => hno j h1 (by omega)) (by omega)
  have h7 : date + 7 ∉ td := hno _ (by omega) (by omega)
  have hm7 : date - 7 ∉ td := hno _ (by omega) (by omega)
  have h : map_to_trading_day td 7 7 date = date := by
    simp [map_to_trading_day, hdate, hf, hb, h7, hm7]
  exact ⟨h, by simp [alignNewsDates, h]⟩

theorem C3_no_match_returns_input_date_witness :
    map_to_trading_day [] 7 7 100 = 100 ∧ alignNewsDates [] [100] = [100] :=
  C3_no_match_returns_input_date [] 100 (by simp)

/-! ## Daily returns (`DataMerger.calculate_daily_returns`)

The source sorts the frame by date (`sort_values(date_column)`), computes
`pct_change() * 100` on the close column, and replaces `±inf` by `NaN`.
A price bar is a `(date, close)` pair; the output attaches the
`daily_return` cell (`none` = `NaN`) to each bar.  `pct_change` of a cell
whose predecessor close is `0` is `±inf` or `0/0 = NaN` in pandas, and after
the `replace([inf, -inf], nan)` step every such cell is `NaN`, hence `none`
here. -/

/-- The tail of `pct_change() * 100`: each cell is the percentage change
from its predecessor `prev`, and `none` (NaN) when `prev = 0`. -/
def pctChangeFrom (prev : ℚ) : List ℚ → List (Option ℚ)
  | [] => []
  | c :: cs => (if prev = 0 then none else some ((c - prev) / prev * 100)) :: pctChangeFrom c cs

/-- pandas `Series.pct_change() * 100` followed by `replace([inf, -inf], nan)`:
the first cell is `NaN`, cell `i > 0` is `(close[i] - close[i-1]) / close[i-1] * 100`. -/
def pct_change100 : List ℚ → List (Option ℚ)
  | [] => []
  | c :: cs => none :: pctChangeFrom c cs

/-- `stock_df.sort_values(date_column)`. -/
def sortByDate (bars : List (Int × ℚ)) : List (Int × ℚ) :=
  bars.insertionSort (fun a b => a.1 ≤ b.1)

/-- `DataMerger.calculate_daily_returns` (lines 82–92 of
`src/merge_and_features.py`): sort by date, attach the `daily_return` column.
The `except` arm of the source returns the input frame unchanged; it is
unreachable here since every step is total on well-formed frames. -/
def calculate_daily_returns (bars : List (Int × ℚ)) : List (Int × ℚ × Option ℚ) :=
  let sorted := sortByDate bars
  List.zipWith (fun b r => (b.1, b.2, r)) sorted (pct_change100 (sorted.map Prod.snd))

instance : IsTotal (Int × ℚ) (fun a b => a.1 ≤ b.1) :=
  ⟨fun a b => le_total a.1 b.1⟩

instance : IsTrans (Int × ℚ) (fun a b => a.1 ≤ b.1) :=
  ⟨fun _ _ _ h1 h2 => le_trans h1 h2⟩

lemma pctChangeFrom_length (prev : ℚ) (cs : List ℚ) :
    (pctChangeFrom prev cs).length = cs.length := by
  induction cs generalizing prev with
  | nil => rfl
  | cons c cs ih => simp [pctChangeFrom, ih]

lemma pct_change100_length (closes : List ℚ) :
    (pct_change100 closes).length = closes.length := by
  cases closes with
  | nil => rfl
  | cons c cs => simp [pct_change100, pctChangeFrom_length]

lemma zipWith_attach_map_ret (l : List (Int × ℚ)) (rs : List (Option ℚ))
    (h : rs.length = l.length) :
    (List.zipWith (fun b r => (b.1, b.2, r)) l rs).map (fun x => x.2.2) = rs := by
  induction l generalizing rs with
  | nil => cases rs with
    | nil => rfl
    | cons r rs => simp at h
  | cons b l ih =>
    cases rs with
    | nil => simp at h
    | cons r rs =>
      simp only [List.zipWith, List.map]
      rw [ih rs (by simpa using h)]

lemma zipWith_attach_map_bar (l : List (Int × ℚ)) (rs : List (Option ℚ))
    (h : rs.length = l.length) :
    (List.zipWith (fun b r => (b.1, b.2, r)) l rs).map (fun x => (x.1, x.2.1)) = l := by
  induction l generalizing rs with
  | nil => rfl
  | cons b l ih =>
    cases rs with
    | nil => simp at h
    | cons r rs =>
      simp only [List.zipWith, List.map]
      rw [ih rs (by simpa using h)]

lemma pctChangeFrom_getElem (cs : List ℚ) (prev a b : ℚ) (i : ℕ)
    (ha : (prev :: cs)[i]? = some a) (hb : cs[i]? = some b) :
    (pctChangeFrom prev cs)[i]? =
      some (if a = 0 then none else some ((b - a) / a * 100)) := by
  induction cs generalizing prev i with
  | nil => simp at hb
  | cons c cs ih =>
    cases i with
    | zero =>
      simp only [List.getElem?_cons_zero, Option.some_inj] at ha hb
      subst ha; subst hb
      simp [pctChangeFrom]
    | succ j =>
      simp only [List.getElem?_cons_succ] at ha hb
      simpa [pctChangeFrom] using ih c j ha hb

lemma pct_change100_getElem (closes : List ℚ) (a b : ℚ) (i : ℕ)
    (ha : closes[i]? = some a) (hb : closes[i + 1]? = some b) :
    (pct_change100 closes)[i + 1]? =
      some (if a = 0 then none else some ((b - a) / a * 100)) := by
  cases closes with
  | nil => simp at ha
  | cons c cs =>
    simp only [List.getElem?_cons_succ] at hb
    simpa [pct_change100] using pctChangeFrom_getElem cs c a b i ha hb

/-- C1 (counterexample): the claim says the computed returns for the close
series [100, 110, 99] are [None, 0.10, -0.10].  The source computes
`pct_change() * 100` (the docstring says "daily percentage returns"), so the
computed cells are [NaN, 10, -10]: the value at index 1 is `10`, not `0.10`. -/
theorem C1_counterexample :
    (calculate_daily_returns [(0, 100), (1, 110), (2, 99)]).map (fun r => r.2.2) =
      [none, some 10, some (-10)] ∧
    ¬((10 : ℚ) = 1 / 10 ∧ (-10 : ℚ) = -(1 / 10)) := by
  constructor
  · norm_num [calculate_daily_returns, sortByDate, List.insertionSort, List.orderedInsert,
      pct_change100, pctChangeFrom]
  · norm_num

/-- C1 (amended): for every per-ticker price series sorted ascending by date,
`calculate_daily_returns` yields
`daily_return[i] = (close[i] - close[i-1]) / close[i-1] * 100` (a
*percentage*) for every `i > 0` with `close[i-1] ≠ 0`, and a missing value
(`NaN`) at position 0; for the close series [100, 110, 99] the computed
returns are [None, 10, -10]. -/
theorem C1_returns_are_percentages (bars : List (Int × ℚ))
    (hs : List.Sorted (fun a b : Int × ℚ => a.1 ≤ b.1) bars)
    (i : ℕ) (da db : Int) (a b : ℚ)
    (hia : bars[i]? = some (da, a)) (hib : bars[i + 1]? = some (db, b)) (ha : a ≠ 0) :
    ((calculate_daily_returns bars).map fun r => r.2.2)[i + 1]? =
        some (some ((b - a) / a * 100)) ∧
    ((calculate_daily_returns bars).map fun r => r.2.2)[0]? = some none := by
  have hsort : sortByDate bars = bars := hs.insertionSort_eq
  have hmap : ((calculate_daily_returns bars).map fun r => r.2.2) =
      pct_change100 (bars.map Prod.snd) := by
    simp only [calculate_daily_returns, hsort]
    exact zipWith_attach_map_ret bars _ (by simp [pct_change100_length])
  have ha' : (bars.map Prod.snd)[i]? = some a := by
    rw [List.getElem?_map, hia]; rfl
  have hb' : (bars.map Prod.snd)[i + 1]? = some b := by
    rw [List.getElem?_map, hib]; rfl
  rw [hmap]
  constructor
  · rw [pct_change100_getElem _ a b i ha' hb']
    simp [ha]
  · cases bars with
    | nil => simp at hia
    | cons x xs => simp [pct_change100]

theorem C1_returns_are_percentages_witness :
    ((calculate_daily_returns [(0, 100), (1, 110)]).map fun r => r.2.2)[0 + 1]? =
        some (some ((110 - 100) / 100 * 100)) ∧
    ((calculate_daily_returns [(0, 100), (1, 110)]).map fun r => r.2.2)[0]? = some none :=
  C1_returns_are_percentages [(0, 100), (1, 110)] (by decide) 0 0 1 100 110
    (by decide) (by decide) (by decide)

/-- C4 (counterexample): the claim says a date inversion makes
`calculate_daily_returns` fail with `UnorderedInputError` and that the
calculator never reorders.  On the inverted series [(1, 110), (0, 100)] the
source silently sorts (`sort_values`) and returns a numeric result in date
order — the output date order [0, 1] is not the input order [1, 0] and no
error is raised. -/
theorem C4_counterexample :
    calculate_daily_returns [(1, 110), (0, 100)] = [(0, 100, none), (1, 110, some 10)] ∧
    (calculate_daily_returns [(1, 110), (0, 100)]).map (fun r => r.1) ≠ [1, 0] := by
  have h : calculate_daily_returns [(1, 110), (0, 100)] = [(0, 100, none), (1, 110, some 10)] := by
    norm_num [calculate_daily_returns, sortByDate, List.insertionSort, List.orderedInsert,
      pct_change100, pctChangeFrom]
  refine ⟨h, ?_⟩
  rw [h]
  norm_num

/-- C4 (amended): `calculate_daily_returns` never fails on a series with a
date inversion; instead it reorders the series itself: the output is always
sorted ascending by date, its (date, close) pairs are a permutation of the
input bars, and every input bar produces exactly one output row. -/
theorem C4_reorders_and_never_fails (bars : List (Int × ℚ)) :
    List.Sorted (· ≤ ·) ((calculate_daily_returns bars).map fun r => r.1) ∧
    List.Perm ((calculate_daily_returns bars).map fun r => (r.1, r.2.1)) bars ∧
    (calculate_daily_returns bars).length = bars.length := by
  have hbar : (calculate_daily_returns bars).map (fun r => (r.1, r.2.1)) = sortByDate bars := by
    simp only [calculate_daily_returns]
    exact zipWith_attach_map_bar _ _ (by simp [pct_change100_length])
  refine ⟨?_, ?_, ?_⟩
  · have h1 : ((calculate_daily_returns bars).map fun r => r.1) =
        (sortByDate bars).map Prod.fst := by
      have h2 := congrArg (List.map Prod.fst) hbar
      simpa [List.map_map, Function.comp] using h2
    rw [h1]
    have hs := List.sorted_insertionSort (fun a b : Int × ℚ => a.1 ≤ b.1) bars
    exact hs.map Prod.fst (fun a b h => h)
  · rw [hbar]
    exact List.perm_insertionSort _ bars
  · simp [calculate_daily_returns, List.length_zipWith, sortByDate,
      List.length_insertionSort, pct_change100_length]

/-! ## Sentiment bucketing and the daily dominant category

`SentimentAnalyzer.analyze_news_sentiment` (`src/sentiment.py`, lines 70–72)
buckets each item's combined score with *strict* comparisons:
`'positive' if x > 0.1 else 'negative' if x < -0.1 else 'neutral'`.
`DataMerger.merge_sentiment_returns` (lines 106–111) then aggregates the
per-item category strings of each (aligned_date, ticker) group with
`x.mode()[0] if len(x.mode()) > 0 else 'neutral'`.  pandas `Series.mode()`
returns the most frequent values sorted ascending — for string dtype that is
Python's lexicographic comparison on code points — so `[0]` is the
*lexicographically least* bucket among those of maximal count.  `pyStrLt`
below models Python's `str` `<`. -/

/-- Lexicographic comparison of code-point lists (Python string `<`). -/
def listLtb : List Char → List Char → Bool
  | [], [] => false
  | [], _ :: _ => true
  | _ :: _, [] => false
  | a :: as, b :: bs => if a < b then true else if b < a then false else listLtb as bs

/-- Python's `<` on strings: lexicographic on code points. -/
def pyStrLt (a b : String) : Bool := listLtb a.data b.data

/-- Per-item categorical sentiment of `SentimentAnalyzer.analyze_news_sentiment`
(strict thresholds, exactly as in the source). -/
def sentiment_category (x : ℚ) : String :=
  if x > 0.1 then "positive" else if x < -0.1 then "negative" else "neutral"

/-- Number of occurrences of `v` in `xs` (the group size backing
`Series.mode`). -/
def countOcc (xs : List String) (v : String) : ℕ :=
  (xs.filter (fun w => w = v)).length

/-- One comparison step of extracting `mode()[0]`: prefer the value with the
strictly larger count, and on a tie the lexicographically smaller one. -/
def betterMode (xs : List String) (best c : String) : String :=
  if countOcc xs best < countOcc xs c ∨
      (countOcc xs c = countOcc xs best ∧ pyStrLt c best) then c else best

/-- `x.mode()[0] if len(x.mode()) > 0 else 'neutral'`: the lexicographically
least among the most frequent values of the group (pandas sorts the modes
ascending), `'neutral'` for an empty group. -/
def modeFirst : List String → String
  | [] => "neutral"
  | x :: xs => xs.foldl (betterMode (x :: xs)) x

/-- The dominant category of a group of aligned items, as the pipeline
computes it: bucket each item's combined score (`sentiment.py`), then take
the modal bucket via pandas `mode()[0]` (`merge_and_features.py`). -/
def dominant_category (scores : List ℚ) : String :=
  modeFirst (scores.map sentiment_category)

lemma listLtb_irrefl : ∀ as, listLtb as as = false
  | [] => rfl
  | a :: as => by simp [listLtb, listLtb_irrefl as]

lemma listLtb_trans : ∀ as bs cs, listLtb as bs = true → listLtb bs cs = true →
    listLtb as cs = true
  | [], [], _, h1, _ => by simp [listLtb] at h1
  | [], _ :: _, [], _, h2 => by simp [listLtb] at h2
  | [], _ :: _, _ :: _, _, _ => rfl
  | _ :: _, [], _, h1, _ => by simp [listLtb] at h1
  | _ :: _, _ :: _, [], _, h2 => by simp [listLtb] at h2
  | a :: as, b :: bs, c :: cs, h1, h2 => by
    simp only [listLtb] at h1 h2 ⊢
    by_cases hab : a < b
    · by_cases hbc : b < c
      · rw [if_pos (lt_trans hab hbc)]
      · rw [if_neg hbc] at h2
        by_cases hcb : c < b
        · rw [if_pos hcb] at h2
          exact absurd h2 (by simp)
        · have hbc' : b = c := le_antisymm (not_lt.mp hcb) (not_lt.mp hbc)
          rw [if_pos (lt_of_lt_of_le hab (le_of_eq hbc'))]
    · rw [if_neg hab] at h1
      by_cases hba : b < a
      · rw [if_pos hba] at h1
        exact absurd h1 (by simp)
      · have hab' : a = b := le_antisymm (not_lt.mp hba) (not_lt.mp hab)
        rw [if_neg hba] at h1
        by_cases hbc : b < c
        · rw [if_pos (lt_of_le_of_lt (le_of_eq hab') hbc)]
        · rw [if_neg hbc] at h2
          by_cases hcb : c < b
          · rw [if_pos hcb] at h2
            exact absurd h2 (by simp)
          · have hbc' : b = c := le_antisymm (not_lt.mp hcb) (not_lt.mp hbc)
            rw [if_neg hcb] at h2
            have hac : ¬ a < c := by rw [hab', hbc']; exact lt_irrefl c
            have hca : ¬ c < a := by rw [hab', hbc']; exact lt_irrefl c
            rw [if_neg hac, if_neg hca]
            exact listLtb_trans as bs cs h1 h2

lemma listLtb_trichotomy : ∀ as bs, as = bs ∨ listLtb as bs = true ∨ listLtb bs as = true
  | [], [] => Or.inl rfl
  | [], _ :: _ => Or.inr (Or.inl rfl)
  | _ :: _, [] => Or.inr (Or.inr rfl)
  | a :: as, b :: bs => by
    rcases lt_trichotomy a b with h | h | h
    · exact Or.inr (Or.inl (by simp [listLtb, h]))
    · subst h
      rcases listLtb_trichotomy as bs with h2 | h2 | h2
      · exact Or.inl (by rw [h2])
      · exact Or.inr (Or.inl (by simp [listLtb, h2]))
      · exact Or.inr (Or.inr (by simp [listLtb, h2]))
    · exact Or.inr (Or.inr (by simp [listLtb, h, not_lt.mpr (le_of_lt h)]))

lemma str_eq_of_data_eq {a b : String} (h : a.data = b.data) : a = b := by
  cases a
  cases b
  exact congrArg String.mk h

lemma pyStrLt_irrefl (a : String) : pyStrLt a a = false :=
  listLtb_irrefl a.data

lemma pyStrLt_trans {a b c : String} (h1 : pyStrLt a b = true) (h2 : pyStrLt b c = true) :
    pyStrLt a c = true :=
  listLtb_trans a.data b.data c.data h1 h2

lemma pyStrLt_trichotomy (a b : String) : a = b ∨ pyStrLt a b = true ∨ pyStrLt b a = true := by
  rcases listLtb_trichotomy a.data b.data with h | h | h
  · exact Or.inl (str_eq_of_data_eq h)
  · exact Or.inr (Or.inl h)
  · exact Or.inr (Or.inr h)

lemma pyStrLt_false_trans {a b c : String} (h1 : pyStrLt b a = false)
    (h2 : pyStrLt c b = false) : pyStrLt c a = false := by
  by_contra hcon
  rw [Bool.not_eq_false] at hcon
  rcases pyStrLt_trichotomy b c with h | h | h
  · subst h
    simp [hcon] at h1
  · have := pyStrLt_trans h hcon
    simp [this] at h1
  · simp [h] at h2

/-- Invariant of the `mode()[0]` extraction fold: the result is drawn from the
candidates, its count dominates the seed's and every candidate's count, and on
a count tie the result is never lexicographically greater. -/
lemma foldl_betterMode_spec (all : List String) :
    ∀ (cs : List String) (best : String),
      (cs.foldl (betterMode all) best = best ∨ cs.foldl (betterMode all) best ∈ cs) ∧
      countOcc all best ≤ countOcc all (cs.foldl (betterMode all) best) ∧
      (countOcc all best = countOcc all (cs.foldl (betterMode all) best) →
        pyStrLt best (cs.foldl (betterMode all) best) = false) ∧
      ∀ c ∈ cs, countOcc all c ≤ countOcc all (cs.foldl (betterMode all) best) ∧
        (countOcc all c = countOcc all (cs.foldl (betterMode all) best) →
          pyStrLt c (cs.foldl (betterMode all) best) = false)
  | [], best => by
    refine ⟨Or.inl rfl, le_refl _, fun _ => pyStrLt_irrefl best, ?_⟩
    intro c hc
    exact absurd hc (List.not_mem_nil c)
  | c :: cs, best => by
    obtain ⟨hmem, hle, htie, hall⟩ := foldl_betterMode_spec all cs (betterMode all best c)
    simp only [List.foldl_cons]
    by_cases hcond : countOcc all best < countOcc all c ∨
        (countOcc all c = countOcc all best ∧ pyStrLt c best = true)
    · have hbm : betterMode all best c = c := by
        unfold betterMode
        rw [if_pos hcond]
      rw [hbm] at hmem hle htie hall ⊢
      have hbc : countOcc all best ≤ countOcc all c := by
        rcases hcond with h | ⟨h, _⟩
        · exact le_of_lt h
        · omega
      refine ⟨?_, le_trans hbc hle, ?_, ?_⟩
      · rcases hmem with h | h
        · rw [h]
          exact Or.inr (List.mem_cons_self c cs)
        · exact Or.inr (List.mem_cons_of_mem c h)
      · intro heq
        have h1 : countOcc all best = countOcc all c := by omega
        rcases hcond with h | ⟨_, hlt⟩
        · omega
        · have hcr : pyStrLt c (cs.foldl (betterMode all) c) = false := htie (by omega)
          by_contra hbr
          rw [Bool.not_eq_false] at hbr
          have hct := pyStrLt_trans hlt hbr
          rw [hct] at hcr
          simp at hcr
      · intro c0 hc0
        rcases List.mem_cons.mp hc0 with h | h
        · subst h
          exact ⟨hle, htie⟩
        · exact hall c0 h
    · have hbm : betterMode all best c = best := by
        unfold betterMode
        rw [if_neg hcond]
      rw [hbm] at hmem hle htie hall ⊢
      rw [not_or] at hcond
      obtain ⟨hnlt, hnand⟩ := hcond
      have hcb : countOcc all c ≤ countOcc all best := not_lt.mp hnlt
      have htiecb : countOcc all c = countOcc all best → pyStrLt c best = false := by
        intro h
        by_contra hx
        rw [Bool.not_eq_false] at hx
        exact hnand ⟨h, hx⟩
      refine ⟨?_, hle, htie, ?_⟩
      · rcases hmem with h | h
        · exact Or.inl h
        · exact Or.inr (List.mem_cons_of_mem c h)
      · intro c0 hc0
        rcases List.mem_cons.mp hc0 with h | h
        · subst h
          refine ⟨le_trans hcb hle, ?_⟩
          intro heq
          have h1 : pyStrLt c0 best = false := htiecb (by omega)
          have h2 : pyStrLt best (cs.foldl (betterMode all) best) = false := htie (by omega)
          exact pyStrLt_false_trans h2 h1
        · exact hall c0 h

/-- C5 (counterexample): the claim asserts threshold `score ≥ +0.1 → positive`
and tie-break priority positive > negative > neutral.  In the source the
comparisons are strict (`x > 0.1`), so a score of exactly 0.1 is bucketed
`neutral`; and pandas `mode()[0]` resolves the positive/negative tie of the
scores [0.5, -0.5] to `"negative"` (the lexicographically least mode), not
`"positive"`. -/
theorem C5_counterexample :
    sentiment_category 0.1 = "neutral" ∧ dominant_category [0.5, -0.5] = "negative" := by
  have h1 : sentiment_category 0.1 = "neutral" := by
    unfold sentiment_category
    norm_num
  have hmap : ([0.5, -0.5] : List ℚ).map sentiment_category = ["positive", "negative"] := by
    unfold sentiment_category
    norm_num
  have h2 : modeFirst ["positive", "negative"] = "negative" := by decide
  refine ⟨h1, ?_⟩
  unfold dominant_category
  rw [hmap]
  exact h2

/-- C5 (amended): each item's score is bucketed with *strict* thresholds
(score > 0.1 → positive, score < −0.1 → negative, else neutral), and
`dominant_category` is a modal bucket of the group; ties between equally
frequent buckets are broken by pandas `mode()`'s ascending sort, i.e. the
lexicographically least bucket name wins (so negative > neutral > positive
in tie priority), not the claimed positive-first order. -/
theorem C5_dominant_is_modal_with_lex_ties (s : ℚ) (rest : List ℚ) :
    (∀ x : ℚ, (0.1 < x → sentiment_category x = "positive") ∧
      (x < -0.1 → sentiment_category x = "negative") ∧
      (-0.1 ≤ x → x ≤ 0.1 → sentiment_category x = "neutral")) ∧
    dominant_category (s :: rest) ∈ (s :: rest).map sentiment_category ∧
    ∀ v ∈ (s :: rest).map sentiment_category,
      countOcc ((s :: rest).map sentiment_category) v ≤
        countOcc ((s :: rest).map sentiment_category) (dominant_category (s :: rest)) ∧
      (countOcc ((s :: rest).map sentiment_category) v =
          countOcc ((s :: rest).map sentiment_category) (dominant_category (s :: rest)) →
        pyStrLt v (dominant_category (s :: rest)) = false) := by
  have hd : dominant_category (s :: rest) =
      (rest.map sentiment_category).foldl
        (betterMode ((s :: rest).map sentiment_category)) (sentiment_category s) := rfl
  obtain ⟨hmem, hle, htie, hall⟩ :=
    foldl_betterMode_spec ((s :: rest).map sentiment_category)
      (rest.map sentiment_category) (sentiment_category s)
  refine ⟨?_, ?_, ?_⟩
  · intro x
    refine ⟨fun h => ?_, fun h => ?_, fun h1 h2 => ?_⟩
    · unfold sentiment_category
      rw [if_pos h]
    · unfold sentiment_category
      rw [if_neg (by linarith), if_pos h]
    · unfold sentiment_category
      rw [if_neg (by linarith), if_neg (by linarith)]
  · rw [hd]
    rcases hmem with h | h
    · rw [h]
      exact List.mem_map_of_mem _ (List.mem_cons_self s rest)
    · exact List.mem_cons_of_mem _ h
  · intro v hv
    rw [List.map_cons] at hv
    rw [hd]
    rcases List.mem_cons.mp hv with h | h
    · subst h
      exact ⟨hle, htie⟩
    · exact hall v h

theorem C5_dominant_is_modal_with_lex_ties_witness :
    (∀ x : ℚ, (0.1 < x → sentiment_category x = "positive") ∧
      (x < -0.1 → sentiment_category x = "negative") ∧
      (-0.1 ≤ x → x ≤ 0.1 → sentiment_category x = "neutral")) ∧
    dominant_category ((0.5 : ℚ) :: [-0.5]) ∈ ((0.5 : ℚ) :: [-0.5]).map sentiment_category ∧
    ∀ v ∈ ((0.5 : ℚ) :: [-0.5]).map sentiment_category,
      countOcc (((0.5 : ℚ) :: [-0.5]).map sentiment_category) v ≤
        countOcc (((0.5 : ℚ) :: [-0.5]).map sentiment_category)
          (dominant_category ((0.5 : ℚ) :: [-0.5])) ∧
      (countOcc (((0.5 : ℚ) :: [-0.5]).map sentiment_category) v =
          countOcc (((0.5 : ℚ) :: [-0.5]).map sentiment_category)
            (dominant_category ((0.5 : ℚ) :: [-0.5])) →
        pyStrLt v (dominant_category ((0.5 : ℚ) :: [-0.5])) = false) :=
  C5_dominant_is_modal_with_lex_ties 0.5 [-0.5]

/-! ## Correlation analysis (`CorrelationAnalyzer`, `src/correlation_analyzer.py`)

`calculate_correlation_metrics` drops rows where either the sentiment or the
return cell is `NaN`, returns `None` when fewer than 2 clean rows remain, and
otherwise builds the metrics dictionary.  The statistic formulas (Pearson r,
Spearman r as Pearson of average ranks, sklearn's `r2_score`, the 1-day-lag
Pearson) are standard and live over `ℝ`.  The p-values that scipy attaches to
the coefficients come from scipy's internal t/beta distribution machinery —
an external library, not code of this repository — and are not modelled;
no claim concerns them. -/

/-- Arithmetic mean of a list of reals (`0` for the empty list, as the empty
case is unreachable behind the length guard). -/
noncomputable def listMean (xs : List ℝ) : ℝ := xs.sum / xs.length

/-- Pearson correlation coefficient of two equally long series. -/
noncomputable def pearsonR (xs ys : List ℝ) : ℝ :=
  let mx := listMean xs
  let my := listMean ys
  ((xs.zip ys).map fun p => (p.1 - mx) * (p.2 - my)).sum /
    (Real.sqrt ((xs.map fun x => (x - mx) ^ 2).sum) *
      Real.sqrt ((ys.map fun y => (y - my) ^ 2).sum))

/-- Average (mid) rank of `x` within `xs`, scipy's tie handling for
`spearmanr`. -/
noncomputable def midRank (xs : List ℝ) (x : ℝ) : ℝ :=
  (((xs.filter fun y => y < x).length : ℝ) +
    ((xs.filter fun y => y ≤ x).length : ℝ) + 1) / 2

/-- Rank transform backing the Spearman coefficient. -/
noncomputable def ranks (xs : List ℝ) : List ℝ := xs.map (midRank xs)

/-- sklearn's `r2_score(y_true, y_pred) = 1 - SS_res / SS_tot` (the source
calls it as `r2_score(return_series, sentiment_series)`). -/
noncomputable def r2_score (yTrue yPred : List ℝ) : ℝ :=
  1 - ((yTrue.zip yPred).map fun p => (p.1 - p.2) ^ 2).sum /
    ((yTrue.map fun y => (y - listMean yTrue) ^ 2).sum)

/-- `CorrelationAnalyzer._interpret_correlation_strength` (lines 62–74),
generic over the ordered field used for the coefficient (`ℚ` as the exact
model of a Python float, `ℝ` inside the metrics record). -/
def interpret_correlation_strength {α : Type} [LinearOrderedField α] (correlation : α) :
    String :=
  if (7 : α) / 10 ≤ |correlation| then "Very Strong"
  else if (5 : α) / 10 ≤ |correlation| then "Strong"
  else if (3 : α) / 10 ≤ |correlation| then "Moderate"
  else if (1 : α) / 10 ≤ |correlation| then "Weak"
  else "Very Weak"

/-- The metrics dictionary built by `calculate_correlation_metrics` (the
scipy p-values are external-library internals, see the section comment). -/
structure CorrelationMetrics where
  pearson_correlation : ℝ
  spearman_correlation : ℝ
  r_squared : ℝ
  lagged_correlation : Option ℝ
  n_observations : ℕ
  correlation_strength : String

/-- `clean_df = df[[sentiment_col, return_col]].dropna()`: keep the rows
where both cells are present. -/
def cleanPairs (rows : List (Option ℝ × Option ℝ)) : List (ℝ × ℝ) :=
  rows.filterMap fun p => p.1.bind fun s => p.2.map fun r => (s, r)

/-- `CorrelationAnalyzer.calculate_correlation_metrics` (lines 17–60): a row
is a (sentiment cell, return cell) pair of the merged frame; `none` is
returned — not an exception — when fewer than 2 clean rows remain.  The
source's lagged branch guards on `len(sentiment_series) > 1`, which is always
true behind the `< 2` guard but is modelled verbatim. -/
noncomputable def calculate_correlation_metrics (rows : List (Option ℝ × Option ℝ)) :
    Option CorrelationMetrics :=
  let clean := cleanPairs rows
  if clean.length < 2 then none
  else
    let sentiment_series := clean.map Prod.fst
    let return_series := clean.map Prod.snd
    let pearson_corr := pearsonR sentiment_series return_series
    some {
      pearson_correlation := pearson_corr
      spearman_correlation := pearsonR (ranks sentiment_series) (ranks return_series)
      r_squared := r2_score return_series sentiment_series
      lagged_correlation :=
        if 1 < sentiment_series.length then
          some (pearsonR sentiment_series.dropLast (return_series.drop 1))
        else none
      n_observations := clean.length
      correlation_strength := interpret_correlation_strength pearson_corr }

/-- C2 (counterexample): the claim says that with only 3 merged records the
analysis fails with `InsufficientDataError` and never returns a numeric
result.  The source's only guard is `len(clean_df) < 2: return None`; with 3
clean records it returns a populated metrics dictionary
(`n_observations = 3`), and no `InsufficientDataError` (or any exception)
exists anywhere in the repository. -/
theorem C2_counterexample :
    calculate_correlation_metrics [(some 1, some 2), (some 0, some 1), (some (-1), some 0)] ≠
      none ∧
    Option.map CorrelationMetrics.n_observations
        (calculate_correlation_metrics
          [(some 1, some 2), (some 0, some 1), (some (-1), some 0)]) = some 3 := by
  have hclean : cleanPairs [(some 1, some 2), (some 0, some 1), (some (-1), some 0)] =
      [(1, 2), (0, 1), (-1, 0)] := rfl
  have hlen : ¬ (cleanPairs [(some 1, some 2), (some 0, some 1), (some (-1), some 0)]).length
      < 2 := by
    rw [hclean]
    norm_num
  constructor
  · simp only [calculate_correlation_metrics]
    rw [if_neg hlen]
    simp
  · simp only [calculate_correlation_metrics]
    rw [if_neg hlen]
    rw [hclean]
    rfl

/-- C2 (amended): the small-sample guard of the source has threshold 2, not
5, and its failure mode is returning `None`, not raising: with fewer than 2
clean (non-NaN) merged records `calculate_correlation_metrics` returns
`None`; with 2 or more (in particular with 3) it returns a numeric metrics
record whose `n_observations` is the clean row count. -/
theorem C2_guard_is_two_and_returns_none (rows : List (Option ℝ × Option ℝ)) :
    ((cleanPairs rows).length < 2 → calculate_correlation_metrics rows = none) ∧
    (2 ≤ (cleanPairs rows).length →
      calculate_correlation_metrics rows ≠ none ∧
      Option.map CorrelationMetrics.n_observations (calculate_correlation_metrics rows) =
        some (cleanPairs rows).length) := by
  constructor
  · intro h
    simp only [calculate_correlation_metrics]
    rw [if_pos h]
  · intro h
    have h2 : ¬ (cleanPairs rows).length < 2 := not_lt.mpr h
    refine ⟨?_, ?_⟩
    · simp only [calculate_correlation_metrics]
      rw [if_neg h2]
      simp
    · simp only [calculate_correlation_metrics]
      rw [if_neg h2]
      rfl

theorem C2_guard_is_two_and_returns_none_witness :
    calculate_correlation_metrics [(some 1, none)] = none ∧
    calculate_correlation_metrics [(some 1, some 2), (some 0, some 1), (some (-1), some 0)] ≠
      none :=
  ⟨(C2_guard_is_two_and_returns_none [(some 1, none)]).1 (by simp [cleanPairs]),
    ((C2_guard_is_two_and_returns_none
      [(some 1, some 2), (some 0, some 1), (some (-1), some 0)]).2 (by simp [cleanPairs])).1⟩

/-- C7: for every coefficient `r` (a Python float, modelled exactly as a
rational), the strength label is the fixed bucketing of `|r|`:
≥ 0.7 "Very Strong", then ≥ 0.5 "Strong", then ≥ 0.3 "Moderate", then
≥ 0.1 "Weak", else "Very Weak". -/
theorem C7_strength_label_buckets (r : ℚ) :
    ((7 : ℚ) / 10 ≤ |r| → interpret_correlation_strength r = "Very Strong") ∧
    ((5 : ℚ) / 10 ≤ |r| ∧ |r| < 7 / 10 → interpret_correlation_strength r = "Strong") ∧
    ((3 : ℚ) / 10 ≤ |r| ∧ |r| < 5 / 10 → interpret_correlation_strength r = "Moderate") ∧
    ((1 : ℚ) / 10 ≤ |r| ∧ |r| < 3 / 10 → interpret_correlation_strength r = "Weak") ∧
    (|r| < 1 / 10 → interpret_correlation_strength r = "Very Weak") := by
  unfold interpret_correlation_strength
  refine ⟨fun h => ?_, fun h => ?_, fun h => ?_, fun h => ?_, fun h => ?_⟩
  · rw [if_pos h]
  · rw [if_neg (by linarith [h.2]), if_pos h.1]
  · rw [if_neg (by linarith [h.2]), if_neg (by linarith [h.2]), if_pos h.1]
  · rw [if_neg (by linarith [h.2]), if_neg (by linarith [h.2]), if_neg (by linarith [h.2]),
      if_pos h.1]
  · rw [if_neg (by linarith), if_neg (by linarith), if_neg (by linarith),
      if_neg (by linarith)]

theorem C7_strength_label_buckets_witness :
    interpret_correlation_strength (-0.85 : ℚ) = "Very Strong" :=
  (C7_strength_label_buckets (-0.85)).1 (by norm_num [abs])

/-! ## Frame-level merge (`DataMerger.merge_sentiment_returns`, lines 94–142)

This models the whole `try`/`except` body at dataframe level.  A frame is a
column list plus rows; a row associates column names to cells, and a missing
association is a `NaN` cell.  The body can fail exactly where pandas raises:
a `groupby`/`agg`/`merge` referencing a column the frame does not have
(`KeyError`).  The source's `except Exception` arm returns an *empty* frame
with a fixed eight-column header.  The source renames the group keys
(`aligned_date` → `date`, `stock` → `ticker`) after aggregation; the model
builds the aggregate rows under the renamed columns directly.  pandas
additionally sorts the grouped output by key; no claim depends on row order,
and the model keeps keys in order of last occurrence (`List.dedup`). -/

/-- A dataframe cell. -/
inductive Val where
  | int (n : Int)
  | rat (q : ℚ)
  | str (s : String)
deriving DecidableEq

/-- A dataframe row: column name ↦ cell; absence models `NaN`. -/
abbrev Row := List (String × Val)

/-- A dataframe: header plus rows. -/
structure Frame where
  cols : List String
  rows : List Row
deriving DecidableEq

/-- Cell of column `c` in row `r` (`none` = NaN / absent). -/
def rowGet (r : Row) (c : String) : Option Val :=
  (r.find? fun p => p.1 == c).map Prod.snd

/-- Numeric view of a cell. -/
def valToRat : Val → Option ℚ
  | .rat q => some q
  | .int n => some (n : ℚ)
  | .str _ => none

/-- String view of a cell. -/
def valToStr : Val → Option String
  | .str s => some s
  | _ => none

/-- pandas `'mean'` aggregation: mean of the non-NaN numeric cells, NaN when
there are none. -/
def meanCell (vals : List Val) : Option Val :=
  let qs := vals.filterMap valToRat
  if qs.length = 0 then none else some (.rat (qs.sum / qs.length))

/-- The (date, ticker) group keys of `groupby([dcol, tcol])`; rows with a NaN
key are dropped, as pandas does. -/
def groupKeys (rows : List Row) (dcol tcol : String) : List (Val × Val) :=
  (rows.filterMap fun r =>
    match rowGet r dcol, rowGet r tcol with
    | some d, some t => some (d, t)
    | _, _ => none).dedup

/-- The rows of one `groupby` group. -/
def groupRows (rows : List Row) (dcol tcol : String) (k : Val × Val) : List Row :=
  rows.filter fun r => rowGet r dcol == some k.1 && rowGet r tcol == some k.2

/-- A cell entry, omitted when the aggregate is NaN. -/
def optEntry (c : String) (v : Option Val) : Row :=
  match v with
  | some x => [(c, x)]
  | none => []

/-- The `agg` dictionary of the source: mean of the three sentiment columns,
`x.mode()[0] if len(x.mode()) > 0 else 'neutral'` for the category. -/
def aggGroup (g : List Row) (k : Val × Val) : Row :=
  [("date", k.1), ("ticker", k.2)] ++
  optEntry "textblob_sentiment"
    (meanCell (g.filterMap fun r => rowGet r "textblob_sentiment")) ++
  optEntry "vader_sentiment"
    (meanCell (g.filterMap fun r => rowGet r "vader_sentiment")) ++
  optEntry "combined_sentiment"
    (meanCell (g.filterMap fun r => rowGet r "combined_sentiment")) ++
  [("sentiment_category", .str (modeFirst (g.filterMap fun r =>
    (rowGet r "sentiment_category").bind valToStr)))]

/-- `sentiment_df.groupby([dcol, tcol]).agg({...}).reset_index()` followed by
the rename to `date`/`ticker`. -/
def groupbyAgg (sdf : Frame) (dcol tcol : String) : Frame :=
  { cols := ["date", "ticker", "textblob_sentiment", "vader_sentiment",
      "combined_sentiment", "sentiment_category"],
    rows := (groupKeys sdf.rows dcol tcol).map fun k =>
      aggGroup (groupRows sdf.rows dcol tcol k) k }

/-- `KeyError` check: the first referenced column missing from the frame. -/
def requireCols (f : Frame) (cs : List String) : Except String Unit :=
  match cs.find? (fun c => !(f.cols.contains c)) with
  | some c => .error c
  | none => .ok ()

/-- Do the key cells of two rows agree?  (pandas merge: NaN keys never
match.) -/
def matchKey (l r : Row) (keys : List String) : Bool :=
  keys.all fun c =>
    match rowGet l c, rowGet r c with
    | some a, some b => a == b
    | _, _ => false

/-- `pd.merge(left, right, on=keys, how='inner')`. -/
def merge_inner (left right : Frame) (keys : List String) : Frame :=
  let rcols := right.cols.filter fun c => !(keys.contains c)
  { cols := left.cols ++ rcols,
    rows := left.rows.flatMap fun l =>
      (right.rows.filter fun r => matchKey l r keys).map fun r =>
        l ++ rcols.filterMap fun c => (rowGet r c).map fun v => (c, v) }

/-- The `try` body of `merge_sentiment_returns`: aggregate the sentiment
frame by (aligned_date, stock), rename, inner-merge with the stock frame on
(date, ticker).  Failures are the pandas `KeyError`s of the referenced
columns. -/
def mergeBody (sentiment_df stock_df : Frame) : Except String Frame := do
  _ ← requireCols sentiment_df ["aligned_date", "stock", "textblob_sentiment",
    "vader_sentiment", "combined_sentiment", "sentiment_category"]
  let daily_sentiment := groupbyAgg sentiment_df "aligned_date" "stock"
  _ ← requireCols stock_df ["date", "ticker"]
  pure (merge_inner stock_df daily_sentiment ["date", "ticker"])

/-- The `except Exception` fallback frame: empty, with the source's fixed
eight columns. -/
def mergeFallbackFrame : Frame :=
  { cols := ["date", "ticker", "close", "daily_return", "textblob_sentiment",
      "vader_sentiment", "combined_sentiment", "sentiment_category"],
    rows := [] }

/-- `DataMerger.merge_sentiment_returns`: the `try`/`except` wrapper. -/
def merge_sentiment_returns (sentiment_df stock_df : Frame) : Frame :=
  match mergeBody sentiment_df stock_df with
  | .ok f => f
  | .error _ => mergeFallbackFrame

/-- C10: `merge_sentiment_returns` is a total function that never propagates
a failure: whenever its body fails it returns the empty frame with exactly
the fixed column set {date, ticker, close, daily_return, textblob_sentiment,
vader_sentiment, combined_sentiment, sentiment_category}, and whenever the
body succeeds it returns the body's frame. -/
theorem C10_merge_never_raises (sentiment_df stock_df : Frame) :
    (∀ msg, mergeBody sentiment_df stock_df = .error msg →
      merge_sentiment_returns sentiment_df stock_df = mergeFallbackFrame) ∧
    mergeFallbackFrame.cols = ["date", "ticker", "close", "daily_return",
      "textblob_sentiment", "vader_sentiment", "combined_sentiment",
      "sentiment_category"] ∧
    mergeFallbackFrame.rows = [] ∧
    (∀ f, mergeBody sentiment_df stock_df = .ok f →
      merge_sentiment_returns sentiment_df stock_df = f) := by
  refine ⟨?_, rfl, rfl, ?_⟩
  · intro msg h
    unfold merge_sentiment_returns
    rw [h]
  · intro f h
    unfold merge_sentiment_returns
    rw [h]

theorem C10_merge_never_raises_witness :
    merge_sentiment_returns ⟨["aligned_date", "stock"], []⟩ ⟨["date", "ticker"], []⟩ =
      mergeFallbackFrame :=
  (C10_merge_never_raises ⟨["aligned_date", "stock"], []⟩ ⟨["date", "ticker"], []⟩).1
    "textblob_sentiment" rfl

/-! ## The script pipeline of `src/merger.py` and its random demo fallback

The script matches each news row with the closest price bar of its ticker
(`nsmallest(1, 'date_diff')`, ties to the earliest bar in frame order),
keeps the match when the distance is at most 30 days, and computes
`daily_return = (Close - Open) / Open`.  When **no** row matches, it builds
"demo data" with *unseeded* `np.random` draws
(`uniform(100, 500)`, `normal(0, 0.02)`, `randint(1000000, 5000000)`).  The
random source is modelled as an explicit stream `g : ℕ → ℚ` of draws in
[0, 1]; each demo row consumes three draws, transformed affinely exactly as
the numpy calls transform their underlying uniform source.  The placeholder
string `'2023-12-15'` of the demo branch is the fixed marker
`demoMatchedDate`. -/

structure NewsRec where
  date : Int
  ticker : String
  headline : String
  sentiment : ℚ
deriving DecidableEq

structure StockRec where
  date : Int
  ticker : String
  open_price : ℚ
  close : ℚ
  volume : Int
deriving DecidableEq

structure MergedRec where
  date : Int
  ticker : String
  headline : String
  sentiment : ℚ
  close : ℚ
  daily_return : ℚ
  volume : Int
  matched_stock_date : Int
  date_diff_days : Int
deriving DecidableEq

/-- `ticker_stocks.nsmallest(1, 'date_diff')`: the bar of minimal
`|date - news_date|`, first occurrence on ties. -/
def closestStock (d : Int) : List StockRec → Option StockRec
  | [] => none
  | s :: ss => some (ss.foldl (fun best cur =>
      if |cur.date - d| < |best.date - d| then cur else best) s)

/-- One iteration of the merge loop of `src/merger.py` (lines 37–68). -/
def mergeOne (stocks : List StockRec) (n : NewsRec) : Option MergedRec :=
  match closestStock n.date (stocks.filter fun s => s.ticker == n.ticker) with
  | none => none
  | some s =>
    let dd := |s.date - n.date|
    if dd ≤ 30 then
      some { date := n.date, ticker := n.ticker, headline := n.headline,
             sentiment := n.sentiment, close := s.close,
             daily_return := (s.close - s.open_price) / s.open_price,
             volume := s.volume, matched_stock_date := s.date, date_diff_days := dd }
    else none

/-- The real (non-demo) merge over all news rows. -/
def realMerge (news : List NewsRec) (stocks : List StockRec) : List MergedRec :=
  news.filterMap (mergeOne stocks)

/-- The fixed placeholder date `'2023-12-15'` of the demo branch. -/
def demoMatchedDate : Int := 20231215

/-- The demo-data loop (lines 76–90), with the three `np.random` draws of row
`i` taken from the stream positions `3i`, `3i+1`, `3i+2`. -/
def demoAux : List NewsRec → (ℕ → ℚ) → ℕ → List MergedRec
  | [], _, _ => []
  | n :: ns, g, i =>
    { date := n.date, ticker := n.ticker, headline := n.headline,
      sentiment := n.sentiment,
      close := 100 + 400 * g (3 * i),
      daily_return := 2 / 100 * g (3 * i + 1),
      volume := 1000000 + (4000000 * g (3 * i + 2)).floor,
      matched_stock_date := demoMatchedDate, date_diff_days := 300 } :: demoAux ns g (i + 1)

/-- `merged = pd.DataFrame(demo_data)` of the fallback branch. -/
def demoData (news : List NewsRec) (g : ℕ → ℚ) : List MergedRec :=
  demoAux news g 0

/-- The whole script: real merge when it produces anything, otherwise the
random demo data (`if len(merged) == 0:` fallback). -/
def runMerger (news : List NewsRec) (stocks : List StockRec) (g : ℕ → ℚ) : List MergedRec :=
  let merged := realMerge news stocks
  if merged.length = 0 then demoData news g else merged

/-- The per-ticker correlation metrics computed downstream from the merged
record set (sentiment vs daily_return), connecting the pipeline's output to
`CorrelationAnalyzer.calculate_correlation_metrics`. -/
noncomputable def metricsOfMerged (recs : List MergedRec) : Option CorrelationMetrics :=
  calculate_correlation_metrics
    (recs.map fun r => (some (r.sentiment : ℝ), some (r.daily_return : ℝ)))

/-- C8 (counterexample): the claim says two runs on identical inputs produce
identical merged record sets.  With a news item and no overlapping price
data, the script's fallback fabricates demo rows from *unseeded* `np.random`
draws: two runs whose random streams differ (here the constant streams 0
and 1) produce different `Close` values (100 vs 500), so the pipeline is not
a function of its inputs alone. -/
theorem C8_counterexample :
    runMerger [⟨0, "AAPL", "h", 1⟩] [] (fun _ => 0) ≠
      runMerger [⟨0, "AAPL", "h", 1⟩] [] (fun _ => 1) := by
  intro h
  have e1 : runMerger [⟨0, "AAPL", "h", 1⟩] [] (fun _ => 0) =
      [⟨0, "AAPL", "h", 1, 100 + 400 * 0, 2 / 100 * 0,
        1000000 + ((4000000 : ℚ) * 0).floor, demoMatchedDate, 300⟩] := rfl
  have e2 : runMerger [⟨0, "AAPL", "h", 1⟩] [] (fun _ => 1) =
      [⟨0, "AAPL", "h", 1, 100 + 400 * 1, 2 / 100 * 1,
        1000000 + ((4000000 : ℚ) * 1).floor, demoMatchedDate, 300⟩] := rfl
  rw [e1, e2] at h
  norm_num [MergedRec.mk.injEq] at h

/-- C8 (amended): whenever the real merge is non-empty (at least one news
item matches a price bar of its ticker within 30 days), the pipeline never
reaches the random fallback and is deterministic in its inputs: two runs
with arbitrary random streams produce identical merged record sets and
identical correlation metrics. -/
theorem C8_deterministic_when_merge_nonempty (news : List NewsRec)
    (stocks : List StockRec) (g1 g2 : ℕ → ℚ) (h : realMerge news stocks ≠ []) :
    runMerger news stocks g1 = runMerger news stocks g2 ∧
    metricsOfMerged (runMerger news stocks g1) =
      metricsOfMerged (runMerger news stocks g2) := by
  have hlen : ¬ (realMerge news stocks).length = 0 := by
    simpa [List.length_eq_zero] using h
  have hr : ∀ g : ℕ → ℚ, runMerger news stocks g = realMerge news stocks := by
    intro g
    unfold runMerger
    rw [if_neg hlen]
  rw [hr g1, hr g2]
  exact ⟨rfl, rfl⟩

theorem C8_deterministic_when_merge_nonempty_witness :
    runMerger [⟨0, "AAPL", "h", 1⟩] [⟨0, "AAPL", 100, 110, 5⟩] (fun _ => 0) =
      runMerger [⟨0, "AAPL", "h", 1⟩] [⟨0, "AAPL", 100, 110, 5⟩] (fun _ => 1) ∧
    metricsOfMerged
        (runMerger [⟨0, "AAPL", "h", 1⟩] [⟨0, "AAPL", 100, 110, 5⟩] (fun _ => 0)) =
      metricsOfMerged
        (runMerger [⟨0, "AAPL", "h", 1⟩] [⟨0, "AAPL", 100, 110, 5⟩] (fun _ => 1)) :=
  C8_deterministic_when_merge_nonempty [⟨0, "AAPL", "h", 1⟩] [⟨0, "AAPL", 100, 110, 5⟩]
    (fun _ => 0) (fun _ => 1)
    (by simp [realMerge, mergeOne, closestStock, List.filterMap, List.filter])
